import Mathlib

/-!
Verification of the shadowing-practice app's auto-play orchestration and
prefetch/cache subsystem.

The embedding follows the two core source files:
* the prefetch/cache hook (`usePrefetch`: `fetchTts`, `getTtsKey`,
  `prefetchTts`, `prefetchScript`, `getOrFetchTts`, `waitForScript`,
  `clearScriptCache`, `clearTtsCache`, `clearAllCaches`);
* the practice view (`synthesizeSpeech`, `wait`, `playAudioAndWait`,
  `startAutoPlay`, `stopAutoPlay`, `pauseAutoPlay`, `resumeAutoPlay`,
  `PAUSE_DURATION`), plus the theme catalog (`PRESET_THEMES`) and the
  continuous-mode rotation in the page component (`handlePracticeComplete`).

JavaScript `Map`s are modelled as association lists, `ArrayBuffer`s as
abstract `Nat` identifiers, and the single-threaded event-loop concurrency
as interleavings of the synchronous segments between `await` points.
-/

namespace ShadowFlow

/-! ### Association-list model of the JavaScript `Map` operations used -/

def mapGet? {α : Type} : List (String × α) → String → Option α
  | [], _ => none
  | (k', v) :: rest, k => if k' = k then some v else mapGet? rest k

def mapHas {α : Type} (m : List (String × α)) (k : String) : Bool :=
  (mapGet? m k).isSome

def mapSet {α : Type} : List (String × α) → String → α → List (String × α)
  | [], k, v => [(k, v)]
  | (k', v') :: rest, k, v =>
      if k' = k then (k, v) :: rest else (k', v') :: mapSet rest k v

def mapDel {α : Type} : List (String × α) → String → List (String × α)
  | [], _ => []
  | (k', v') :: rest, k => if k' = k then rest else (k', v') :: mapDel rest k

/-! ### Audio-cache key construction

`getTtsKey` builds the cache key from the exact sentence text and the
playback rate formatted by JavaScript's `Number.prototype.toFixed(2)`.
`toFixed2` models `toFixed(2)` for the non-negative rational rates the app
uses (the speed slider covers 0.7 to 2.0): round to the nearest multiple of
1/100 (half up) and print with exactly two fraction digits.  The number of
hundredths is `⌊q * 100 + 1/2⌋`, computed on the numerator/denominator as
`(200 * num + den) / (2 * den)` with integer floor division. -/

def toFixed2 (q : ℚ) : String :=
  let cents : ℤ := Int.fdiv (200 * q.num + q.den) (2 * q.den)
  let n : ℕ := cents.toNat
  let whole := n / 100
  let frac := n % 100
  toString whole ++ "." ++ (if frac < 10 then "0" ++ toString frac else toString frac)

/-- Source: `getTtsKey(text, rate)` returns `` `${text}::${rate.toFixed(2)}` ``. -/
def getTtsKey (text : String) (rate : ℚ) : String :=
  text ++ "::" ++ toFixed2 rate

/-! ### Outcomes of one `fetchTts` call

`fetchTts` wraps the HTTP request in `try`/`catch`.  A rejected `fetch()`
call (`netError`) and a non-OK response (`notOk`) are caught and become
`null`.  The success path executes `return response.arrayBuffer();` — the
body promise is returned from inside the `try` block *without* `await`, so
if reading the body fails (`bodyError`) the rejection happens after control
has left the `try` block and is **not** caught: `fetchTts`'s own promise
rejects.  `Except Unit (Option ℕ)` records exactly that: `.error` is a
rejected promise, `.ok none` is a resolved `null`. -/

inductive FetchOutcome
  | netError
  | notOk
  | bodyError
  | ok (buf : ℕ)
  deriving DecidableEq

def fetchTts : FetchOutcome → Except Unit (Option ℕ)
  | .netError => .ok none
  | .notOk => .ok none
  | .bodyError => .error ()
  | .ok b => .ok (some b)

/-! ### The prefetch cache as an interleaved state machine

The `usePrefetch` hook keeps four maps: `scripts`, `tts`, `pendingScripts`
and `pendingTts`.  Scripts are abstracted to `ℕ` identifiers.  Each entry of
`pendingScripts`/`pendingTts` stands for the stored in-flight promise; since
a call's fetch outcome is predetermined by the network, the entry records
that outcome.  `fetchScript` awaits `response.json()` inside its `try`, so
its promise never rejects and its outcome is just `Option ℕ`.

`fetchScriptCount`/`fetchTtsCount` instrument how often the underlying
fetcher has been invoked, and `inFlightTts` counts TTS fetches that have
been started and whose initiating call has not yet resumed (an upper bound
for the window during which the request is outstanding).  They are
observers only: no branch of the code reads them.

Each async function is an `AsyncCall`: its identity (`OpKind`) plus a
program counter marking the synchronous segment between `await` points it
will run next.  JavaScript's event loop runs one such segment atomically;
a schedule is the order in which segments are dispatched.  A call that
`await`s a *stored pending promise* is resumed only after the owning
call's own continuation has run (promise subscribers run in subscription
order), which is modelled by blocking it until the pending entry is gone —
except that a promise destined to reject (`bodyError`) rejects all its
awaiters, so such a waiter resumes to `doneRejected` directly. -/

structure CacheState where
  scripts : List (String × ℕ)
  pendingScripts : List (String × Option ℕ)
  tts : List (String × ℕ)
  pendingTts : List (String × FetchOutcome)
  fetchScriptCount : ℕ
  fetchTtsCount : ℕ
  inFlightTts : ℕ
  deriving DecidableEq

def emptyCache : CacheState := ⟨[], [], [], [], 0, 0, 0⟩

inductive OpKind
  | prefetchTtsOp (text : String) (rate : ℚ) (res : FetchOutcome)
  | getOrFetchTtsOp (text : String) (rate : ℚ) (res : FetchOutcome)
  | prefetchScriptOp (themeName : String) (res : Option ℕ)
  | waitForScriptOp (themeName : String)
  deriving DecidableEq

inductive Pc
  | start
  | awaitOwnFetch
  | awaitPending
  | doneOk (result : Option ℕ)
  | doneRejected
  deriving DecidableEq

structure AsyncCall where
  op : OpKind
  pc : Pc
  deriving DecidableEq

/-- One synchronous segment of one async call, straight from the source of
`prefetchTts`, `getOrFetchTts`, `prefetchScript` and `waitForScript`. -/
def stepCall (c : CacheState) (t : AsyncCall) : CacheState × AsyncCall :=
  match t.op, t.pc with
  | .prefetchTtsOp text rate res, .start =>
      -- `if (cache.tts.has(key) || cache.pendingTts.has(key)) return;`
      -- else start the fetch and store it in `pendingTts`
      let key := getTtsKey text rate
      if mapHas c.tts key || mapHas c.pendingTts key then
        (c, { t with pc := .doneOk none })
      else
        ({ c with pendingTts := mapSet c.pendingTts key res,
                  fetchTtsCount := c.fetchTtsCount + 1,
                  inFlightTts := c.inFlightTts + 1 },
         { t with pc := .awaitOwnFetch })
  | .prefetchTtsOp text rate res, .awaitOwnFetch =>
      -- `const audio = await promise;` — on rejection the function rethrows
      -- before `cache.pendingTts.delete(key)` runs
      let key := getTtsKey text rate
      let c1 := { c with inFlightTts := c.inFlightTts - 1 }
      match fetchTts res with
      | .error _ => (c1, { t with pc := .doneRejected })
      | .ok audio =>
          let c2 := { c1 with pendingTts := mapDel c1.pendingTts key }
          match audio with
          | some b =>
              ({ c2 with tts := mapSet c2.tts key b }, { t with pc := .doneOk none })
          | none => (c2, { t with pc := .doneOk none })
  | .getOrFetchTtsOp text rate _, .start =>
      -- cached hit / join pending / fetch now (without registering a pending entry)
      let key := getTtsKey text rate
      if mapHas c.tts key then
        (c, { t with pc := .doneOk (mapGet? c.tts key) })
      else if mapHas c.pendingTts key then
        (c, { t with pc := .awaitPending })
      else
        ({ c with fetchTtsCount := c.fetchTtsCount + 1,
                  inFlightTts := c.inFlightTts + 1 },
         { t with pc := .awaitOwnFetch })
  | .getOrFetchTtsOp text rate _, .awaitPending =>
      -- `await cache.pendingTts.get(key); return cache.tts.get(key) || null;`
      let key := getTtsKey text rate
      match mapGet? c.pendingTts key with
      | none => (c, { t with pc := .doneOk (mapGet? c.tts key) })
      | some o =>
          if o = .bodyError then (c, { t with pc := .doneRejected }) else (c, t)
  | .getOrFetchTtsOp text rate res, .awaitOwnFetch =>
      -- `const audio = await fetchTts(text, rate); if (audio) cache.tts.set(key, audio);`
      let key := getTtsKey text rate
      let c1 := { c with inFlightTts := c.inFlightTts - 1 }
      match fetchTts res with
      | .error _ => (c1, { t with pc := .doneRejected })
      | .ok (some b) =>
          ({ c1 with tts := mapSet c1.tts key b }, { t with pc := .doneOk (some b) })
      | .ok none => (c1, { t with pc := .doneOk none })
  | .prefetchScriptOp name res, .start =>
      if mapHas c.scripts name || mapHas c.pendingScripts name then
        (c, { t with pc := .doneOk none })
      else
        ({ c with pendingScripts := mapSet c.pendingScripts name res,
                  fetchScriptCount := c.fetchScriptCount + 1 },
         { t with pc := .awaitOwnFetch })
  | .prefetchScriptOp name res, .awaitOwnFetch =>
      -- `const script = await promise; cache.pendingScripts.delete(key);
      --  if (script) cache.scripts.set(key, script);`
      let c1 := { c with pendingScripts := mapDel c.pendingScripts name }
      match res with
      | some s => ({ c1 with scripts := mapSet c1.scripts name s }, { t with pc := .doneOk none })
      | none => (c1, { t with pc := .doneOk none })
  | .waitForScriptOp name, .start =>
      if mapHas c.scripts name then
        (c, { t with pc := .doneOk (mapGet? c.scripts name) })
      else if mapHas c.pendingScripts name then
        (c, { t with pc := .awaitPending })
      else
        (c, { t with pc := .doneOk none })
  | .waitForScriptOp name, .awaitPending =>
      -- `await cache.pendingScripts.get(themeName); return cache.scripts.get(themeName) || null;`
      match mapGet? c.pendingScripts name with
      | none => (c, { t with pc := .doneOk (mapGet? c.scripts name) })
      | some _ => (c, t)
  | _, _ => (c, t)

structure CacheSys where
  cache : CacheState
  calls : List AsyncCall
  deriving DecidableEq

/-- A schedulable event: dispatch one call's next segment, or one of the
synchronous cache-clearing entry points of `usePrefetch`. -/
inductive CacheAct
  | run (i : ℕ)
  | clearScriptCacheAct (themeName : String)
  | clearTtsCacheAct
  | clearAllCachesAct
  deriving DecidableEq

def applyCacheAct (s : CacheSys) (a : CacheAct) : CacheSys :=
  match a with
  | .run i =>
      match s.calls.get? i with
      | none => s
      | some t =>
          let p := stepCall s.cache t
          { cache := p.1, calls := s.calls.set i p.2 }
  | .clearScriptCacheAct name =>
      -- `cacheRef.current.scripts.delete(themeName);` — pendings untouched
      { s with cache := { s.cache with scripts := mapDel s.cache.scripts name } }
  | .clearTtsCacheAct =>
      -- `cacheRef.current.tts.clear();`
      { s with cache := { s.cache with tts := [] } }
  | .clearAllCachesAct =>
      { s with cache := { s.cache with scripts := [], tts := [] } }

def runCacheActs (s : CacheSys) (acts : List CacheAct) : CacheSys :=
  acts.foldl applyCacheAct s

def initCacheSys (ops : List OpKind) : CacheSys :=
  { cache := emptyCache, calls := ops.map fun o => ⟨o, .start⟩ }

/-- Run a pure interleaving (no cache clears) of the given calls. -/
def runSched (ops : List OpKind) (sched : List ℕ) : CacheSys :=
  runCacheActs (initCacheSys ops) (sched.map CacheAct.run)

/-! ### Theme catalog and continuous-mode rotation

`Theme` and `PRESET_THEMES` are the static catalog from the types module;
`requiresSearch`/`searchQuery` are optional fields.  The page component
defines `SEARCH_THEMES = PRESET_THEMES.filter((t) => t.requiresSearch)` and,
in `handlePracticeComplete`, advances
`nextIndex = (currentThemeIndex + 1) % SEARCH_THEMES.length`, starting from
index 0 (`handleStartContinuousMode`). -/

structure Theme where
  id : String
  name : String
  nameJa : String
  description : String
  requiresSearch : Option Bool := none
  searchQuery : Option String := none
  deriving DecidableEq

def PRESET_THEMES : List Theme := [
  { id := "meeting", name := "Meeting", nameJa := "会議進行",
    description := "Phrases for running and participating in meetings" },
  { id := "business", name := "Business", nameJa := "ビジネス",
    description := "General business communication and negotiations" },
  { id := "restaurant", name := "Restaurant", nameJa := "レストラン",
    description := "Ordering food, making reservations, and dining out" },
  { id := "travel", name := "Travel", nameJa := "旅行",
    description := "Airport, hotel, and travel-related conversations" },
  { id := "shopping", name := "Shopping", nameJa := "ショッピング",
    description := "Shopping, asking prices, and making purchases" },
  { id := "smalltalk", name := "Small Talk", nameJa := "雑談",
    description := "Casual conversations and making friends" },
  { id := "japan", name := "About Japan", nameJa := "日本紹介",
    description := "Explaining Japanese culture, traditions, and attractions" },
  { id := "aromatherapy", name := "Aromatherapy", nameJa := "アロマテラピー",
    description := "Essential oils, relaxation, and wellness conversations" },
  { id := "ai-global", name := "AI News (Global)", nameJa := "AI動向（国際）",
    description := "Global AI and machine learning news",
    requiresSearch := some true,
    searchQuery := some "OpenAI Anthropic Google DeepMind AI news today" },
  { id := "ai-japan", name := "AI News (Japan)", nameJa := "AI動向（国内）",
    description := "Japan AI industry and research news",
    requiresSearch := some true,
    searchQuery := some "日本 AI 人工知能 企業 研究 ニュース" },
  { id := "tech-global", name := "Tech News (Global)", nameJa := "テック（国際）",
    description := "Global technology and innovation news",
    requiresSearch := some true,
    searchQuery := some "Apple Google Microsoft Meta technology news today" },
  { id := "tech-japan", name := "Tech News (Japan)", nameJa := "テック（国内）",
    description := "Japan technology industry news",
    requiresSearch := some true,
    searchQuery := some "日本 テクノロジー IT企業 ソニー 任天堂 ニュース" },
  { id := "economy-global", name := "World Economy", nameJa := "世界経済",
    description := "Global economic trends and market news",
    requiresSearch := some true,
    searchQuery := some "world economy market stock Fed ECB news today" },
  { id := "economy-japan", name := "Japan Economy", nameJa := "日本経済",
    description := "Japan economic and market news",
    requiresSearch := some true,
    searchQuery := some "日本経済 日銀 円相場 株価 GDP ニュース" },
  { id := "startup-global", name := "Startups (Global)", nameJa := "スタートアップ（国際）",
    description := "Global startup funding and unicorn news",
    requiresSearch := some true,
    searchQuery := some "startup funding unicorn venture capital news today" },
  { id := "startup-japan", name := "Startups (Japan)", nameJa := "スタートアップ（国内）",
    description := "Japan startup ecosystem news",
    requiresSearch := some true,
    searchQuery := some "日本 スタートアップ ベンチャー 資金調達 ニュース" },
  { id := "science-tech", name := "Science & Research", nameJa := "科学技術",
    description := "Scientific discoveries and research breakthroughs",
    requiresSearch := some true,
    searchQuery := some "science discovery research breakthrough news today" },
  { id := "energy-environment", name := "Energy & Climate", nameJa := "エネルギー・環境",
    description := "Clean energy and climate news",
    requiresSearch := some true,
    searchQuery := some "renewable energy climate change EV solar news today" },
  { id := "finance-investment", name := "Finance & Investment", nameJa := "金融・投資",
    description := "Investment trends and financial news",
    requiresSearch := some true,
    searchQuery := some "investment cryptocurrency bitcoin ETF hedge fund news today" },
  { id := "business-trends", name := "Business Trends", nameJa := "ビジネストレンド",
    description := "Business strategy and industry trends",
    requiresSearch := some true,
    searchQuery := some "business strategy M&A corporate leadership trend news today" }]

/-- `const SEARCH_THEMES = PRESET_THEMES.filter((t) => t.requiresSearch);`
(a missing `requiresSearch` is falsy). -/
def SEARCH_THEMES : List Theme :=
  PRESET_THEMES.filter fun t => t.requiresSearch.getD false

/-- The index update in `handlePracticeComplete`:
`(currentThemeIndex + 1) % SEARCH_THEMES.length`. -/
def nextThemeIndex (currentThemeIndex : ℕ) : ℕ :=
  (currentThemeIndex + 1) % SEARCH_THEMES.length

/-- Theme index after `k` completed practices of an uninterrupted continuous
run: `handleStartContinuousMode` sets index 0, then each completion applies
`nextThemeIndex`. -/
def themeIndexSeq : ℕ → ℕ
  | 0 => 0
  | k + 1 => nextThemeIndex (themeIndexSeq k)

/-! ### The auto-play run of the practice view

`startAutoPlay` walks the sentence list: per valid sentence it awaits
`synthesizeSpeech`, `playAudioAndWait`, `wait(PAUSE_DURATION)`,
`playAudioAndWait` again and — only when the sentence is not the last —
another `wait(PAUSE_DURATION)`.  `synthesizeSpeech` throws on a non-OK
response; the throw is caught by the `catch` around the whole loop
(`console.error("Auto-play error:", error)`), which ends the run.

The trace records every awaited operation in order (each `await` is
immediately preceded by its status update).  `synthOk i` predetermines
whether the synthesis request for sentence index `i` succeeds. -/

structure Sentence where
  id : ℕ
  text : String
  translation : Option String := none
  deriving DecidableEq

def PAUSE_DURATION : ℕ := 3000

inductive Event
  | synthStart (i : ℕ)
  | play (i : ℕ)
  | pause (ms : ℕ)
  | statusNextTheme
  | practiceComplete
  | statusComplete
  | errorLog
  deriving DecidableEq

/-- The loop body of `startAutoPlay` over the remaining sentences, where `i`
is the index of the first remaining sentence.  Returns the awaited events and
whether the loop finished without an exception. -/
def autoPlayFrom : ℕ → List Sentence → (ℕ → Bool) → List Event × Bool
  | _, [], _ => ([], true)
  | i, s :: rest, synthOk =>
      if s.text = "" then
        -- `if (!sentence || !sentence.text) { ...; continue; }`
        autoPlayFrom (i + 1) rest synthOk
      else if synthOk i then
        let r := autoPlayFrom (i + 1) rest synthOk
        ((Event.synthStart i :: Event.play i :: Event.pause PAUSE_DURATION ::
            Event.play i ::
            (match rest with
             | [] => []                         -- `i < sentences.length - 1` fails
             | _ :: _ => [Event.pause PAUSE_DURATION])) ++ r.1,
         r.2)
      else
        -- `await synthesizeSpeech(...)` throws; the loop is abandoned
        ([Event.synthStart i], false)

/-- The whole of `startAutoPlay` (no stop request): the loop, then — only
when no exception occurred — the completion block, which in continuous mode
waits 1000 ms and calls `onPracticeComplete`, and otherwise announces
`"Completed!"` and waits 1000 ms.  An exception is logged by the `catch`. -/
def startAutoPlayTrace (sentences : List Sentence) (synthOk : ℕ → Bool)
    (continuousMode : Bool) : List Event :=
  match autoPlayFrom 0 sentences synthOk with
  | (evs, true) =>
      evs ++ (if continuousMode then
                [Event.statusNextTheme, Event.pause 1000, Event.practiceComplete]
              else
                [Event.statusComplete, Event.pause 1000])
  | (evs, false) => evs ++ [Event.errorLog]

/-- The loop of `startAutoPlay` when a stop request arrives mid-run: the
abort signal is checked immediately before every `await`, so with `fuel`
awaits allowed to start before the abort is observed, the loop breaks at
the first check that finds the signal aborted (`fuel = 0`). -/
def autoPlayAbortFrom : ℕ → List Sentence → (ℕ → Bool) → ℕ → List Event × ℕ × Bool
  | _, [], _, fuel => ([], fuel, true)
  | _, _ :: _, _, 0 => ([], 0, true)
  | i, s :: rest, synthOk, fuel + 1 =>
      if s.text = "" then
        autoPlayAbortFrom (i + 1) rest synthOk (fuel + 1)
      else if synthOk i then
        match fuel with
        | 0 => ([Event.synthStart i], 0, true)
        | 1 => ([Event.synthStart i, Event.play i], 0, true)
        | 2 => ([Event.synthStart i, Event.play i, Event.pause PAUSE_DURATION], 0, true)
        | f + 3 =>
            match rest with
            | [] =>
                ([Event.synthStart i, Event.play i, Event.pause PAUSE_DURATION,
                  Event.play i], f, true)
            | _ :: _ =>
                match f with
                | 0 =>
                    ([Event.synthStart i, Event.play i, Event.pause PAUSE_DURATION,
                      Event.play i], 0, true)
                | f' + 1 =>
                    let r := autoPlayAbortFrom (i + 1) rest synthOk f'
                    ((Event.synthStart i :: Event.play i ::
                        Event.pause PAUSE_DURATION :: Event.play i ::
                        Event.pause PAUSE_DURATION :: r.1),
                     r.2)
      else
        ([Event.synthStart i], fuel, false)

/-- `startAutoPlay` under a stop request that is observed after `fuel`
awaits: the completion block is guarded by `if (!signal.aborted)`, so it is
skipped whenever the abort was observed (`fuel` exhausted). -/
def startAutoPlayAborted (sentences : List Sentence) (synthOk : ℕ → Bool)
    (continuousMode : Bool) (fuel : ℕ) : List Event :=
  match autoPlayAbortFrom 0 sentences synthOk fuel with
  | (evs, 0, _) => evs
  | (evs, _ + 1, true) =>
      evs ++ (if continuousMode then
                [Event.statusNextTheme, Event.pause 1000, Event.practiceComplete]
              else
                [Event.statusComplete, Event.pause 1000])
  | (evs, _ + 1, false) => evs ++ [Event.errorLog]

/-! ### The pausable, abortable `wait` primitive

`wait(ms, isPausedRef, abortSignal)` schedules a callback every 100 ms.
Each tick first checks the abort signal (resolving immediately if set),
then the pause flag (rescheduling *without incrementing* `elapsed`), and
otherwise adds 100 ms to `elapsed`, resolving once `elapsed >= ms`.
A tick's input is the pair of flags the callback reads. -/

structure TickIn where
  aborted : Bool
  paused : Bool
  deriving DecidableEq

inductive WaitStatus
  | resolvedOut (elapsed : ℕ)
  | waiting (elapsed : ℕ)
  deriving DecidableEq

def waitTick (ms elapsed : ℕ) (t : TickIn) : WaitStatus :=
  if t.aborted then .resolvedOut elapsed
  else if t.paused then .waiting elapsed
  else
    let e := elapsed + 100
    if ms ≤ e then .resolvedOut e else .waiting e

/-- Process the given tick inputs in order; once the promise resolves the
remaining ticks are never scheduled. -/
def waitRun (ms elapsed : ℕ) : List TickIn → WaitStatus
  | [] => .waiting elapsed
  | t :: rest =>
      match waitTick ms elapsed t with
      | .resolvedOut e => .resolvedOut e
      | .waiting e => waitRun ms e rest

/-! ### Component state touched by `pauseAutoPlay` / `resumeAutoPlay` /
`stopAutoPlay`

`currentIndex` is the sentence index, `aborted` the abort-controller
signal, `hasController` whether `abortControllerRef.current` is non-null
(it is, during a run).  `audioPlaying`, `audioEnded` and `audioHasSrc`
mirror the shared `HTMLAudioElement`. -/

structure UiState where
  currentIndex : ℕ
  speed : ℚ
  isAutoPlaying : Bool
  isPaused : Bool
  isPausedRef : Bool
  autoPlayStatus : String
  hasController : Bool
  aborted : Bool
  audioPlaying : Bool
  audioEnded : Bool
  audioHasSrc : Bool
  continuousMode : Bool
  deriving DecidableEq

/-- `pauseAutoPlay`: set both pause flags, then `audio.pause()` if the
shared audio is currently playing. -/
def pauseAutoPlay (s : UiState) : UiState :=
  let s1 := { s with isPausedRef := true, isPaused := true }
  if s1.audioPlaying then { s1 with audioPlaying := false } else s1

/-- `resumeAutoPlay`: clear both pause flags, then `audio.play()` if the
audio is paused, not ended, and has a source. -/
def resumeAutoPlay (s : UiState) : UiState :=
  let s1 := { s with isPausedRef := false, isPaused := false }
  if !s1.audioPlaying && !s1.audioEnded && s1.audioHasSrc then
    { s1 with audioPlaying := true }
  else s1

/-- `stopAutoPlay`: abort the controller (when present), synchronously
`audio.pause()` the shared audio, reset the auto-play state, and in
continuous mode notify `onStopContinuous` (which clears the mode). -/
def stopAutoPlay (s : UiState) : UiState :=
  { s with aborted := s.aborted || s.hasController,
           audioPlaying := false,
           isAutoPlaying := false,
           isPaused := false,
           isPausedRef := false,
           autoPlayStatus := "",
           continuousMode := false }

/-! ### The `playAudioAndWait` promise as an event machine

State fields mirror the closure variables `resolved`, `hasStartedPlaying`,
`readyToPlay` and `wasPaused`, plus the shared audio element's engine state.
`settled` is the promise's final result; the executor only ever calls
`resolve()`, and `cleanup` is its single settling point.  Events carry the
values the handler reads from `isPausedRef.current` and
`abortSignal.aborted` at the moment it fires. -/

inductive PromiseOutcome
  | resolvedP
  | rejectedP
  deriving DecidableEq

structure PmState where
  resolvedFlag : Bool
  hasStartedPlaying : Bool
  readyToPlay : Bool
  wasPaused : Bool
  audioPlaying : Bool
  audioEnded : Bool
  settled : Option PromiseOutcome
  deriving DecidableEq

/-- Observable engine commands a handler issues. -/
inductive PmAction
  | startPlayA
  | audioPauseA
  | audioResumeA
  deriving DecidableEq

/-- `wasPaused` is initialised from `isPausedRef.current` when the monitor
interval is installed. -/
def pmInit (initialPaused : Bool) : PmState :=
  { resolvedFlag := false, hasStartedPlaying := false, readyToPlay := false,
    wasPaused := initialPaused, audioPlaying := false, audioEnded := false,
    settled := none }

/-- `cleanup()`: `if (resolved) return; resolved = true; ...; resolve();` -/
def pmCleanup (st : PmState) : PmState :=
  if st.resolvedFlag then st
  else { st with resolvedFlag := true, settled := some .resolvedP }

/-- `tryPlay()` with the pause/abort flags it reads. -/
def pmTryPlay (paused aborted : Bool) (st : PmState) : PmState × List PmAction :=
  if st.resolvedFlag || aborted then (pmCleanup st, [])
  else if paused then ({ st with readyToPlay := true }, [])
  else if st.hasStartedPlaying then (st, [])
  else
    ({ st with hasStartedPlaying := true, readyToPlay := true, audioPlaying := true },
     [.startPlayA])

inductive PmEvent
  | endedE
  | errorE
  | readyE (paused aborted : Bool)
  | loadTimeoutE (readyStateGe2 paused aborted : Bool)
  | overallTimeoutE
  | tickE (paused aborted : Bool)
  | playFailedE
  deriving DecidableEq

def pmStep (st : PmState) : PmEvent → PmState × List PmAction
  | .endedE =>
      -- `audio.onended`: resolve only if playback had started
      let st' := { st with audioEnded := true, audioPlaying := false }
      if st'.hasStartedPlaying then (pmCleanup st', []) else (st', [])
  | .errorE => (pmCleanup st, [])
  | .readyE p a =>
      -- `onReadyToPlay`: `if (!hasStartedPlaying && !resolved) tryPlay();`
      if !st.hasStartedPlaying && !st.resolvedFlag then pmTryPlay p a st else (st, [])
  | .loadTimeoutE rs2 p a =>
      -- the 2000 ms load timeout: try to play whether or not `readyState >= 2`
      if !st.hasStartedPlaying && !st.resolvedFlag && rs2 then pmTryPlay p a st
      else if !st.hasStartedPlaying && !st.resolvedFlag then pmTryPlay p a st
      else (st, [])
  | .overallTimeoutE =>
      -- the 120000 ms overall timeout
      if !st.resolvedFlag then (pmCleanup st, []) else (st, [])
  | .tickE p a =>
      -- the 100 ms pause-monitor interval
      if a then (pmCleanup st, [])
      else if st.resolvedFlag then (st, [])
      else if p && !st.wasPaused then
        if st.audioPlaying && st.hasStartedPlaying then
          ({ st with audioPlaying := false, wasPaused := p }, [.audioPauseA])
        else ({ st with wasPaused := p }, [])
      else if !p && st.wasPaused then
        if st.readyToPlay && !st.hasStartedPlaying then
          let r := pmTryPlay p a st
          ({ r.1 with wasPaused := p }, r.2)
        else if st.hasStartedPlaying && !st.audioPlaying && !st.audioEnded then
          ({ st with audioPlaying := true, wasPaused := p }, [.audioResumeA])
        else ({ st with wasPaused := p }, [])
      else ({ st with wasPaused := p }, [])
  | .playFailedE =>
      -- `audio.play().catch(...)`: allow a retry
      ({ st with hasStartedPlaying := false, audioPlaying := false }, [])

/-- Process events in order, accumulating the engine commands issued. -/
def pmRun (st : PmState) : List PmEvent → PmState × List PmAction
  | [] => (st, [])
  | e :: rest =>
      let r := pmStep st e
      let r' := pmRun r.1 rest
      (r'.1, r.2 ++ r'.2)

/-! ### Auxiliary definitions used by the theorems -/

def isSynthEv : Event → Bool
  | .synthStart _ => true
  | _ => false

def isPlayEv : Event → Bool
  | .play _ => true
  | _ => false

def isShadowPause : Event → Bool
  | .pause ms => ms == PAUSE_DURATION
  | _ => false

/-- Modelled from the spec (the amended cadence of C2): per sentence
`synthesize, play, pause, play`, with a trailing shadow pause after every
sentence except the last.  `twoPassCadence i n` covers sentence indices
`i, …, i + n - 1`; it is compared against the trace derived from the
source. -/
def twoPassCadence : ℕ → ℕ → List Event
  | _, 0 => []
  | i, 1 => [.synthStart i, .play i, .pause PAUSE_DURATION, .play i]
  | i, n + 2 =>
      [.synthStart i, .play i, .pause PAUSE_DURATION, .play i, .pause PAUSE_DURATION]
        ++ twoPassCadence (i + 1) (n + 1)

def pcIsAwait : Pc → Bool
  | .start => false
  | .awaitOwnFetch => true
  | .awaitPending => false
  | .doneOk _ => false
  | .doneRejected => false

/-- A call suspended on its *own* fetch: the request was started and its
initiator has not resumed, so the request may still be outstanding. -/
def isAwaitFetch (t : AsyncCall) : Bool :=
  pcIsAwait t.pc

def awaitFetchCount (calls : List AsyncCall) : ℕ :=
  calls.countP isAwaitFetch

/-- All calls of the system are `prefetchTts` calls for the same key. -/
def PrefetchCallsOnly (text : String) (rate : ℚ) (calls : List AsyncCall) : Prop :=
  ∀ t ∈ calls, ∃ r, t.op = OpKind.prefetchTtsOp text rate r

/-- Single-flight invariant for concurrent `prefetchTts` calls on one key:
the number of outstanding fetches equals the number of calls awaiting their
own fetch, there is at most one of those, and while one exists the key is
marked in `pendingTts`. -/
def PrefetchInv (key : String) (s : CacheSys) : Prop :=
  s.cache.inFlightTts = awaitFetchCount s.calls ∧
  awaitFetchCount s.calls ≤ 1 ∧
  (awaitFetchCount s.calls = 1 → mapHas s.cache.pendingTts key = true)

/-! ## Theorems

First some small facts about the association-list maps and the list
infrastructure, then one theorem per specification claim. -/

theorem mapGet?_mapSet_self {α : Type} (m : List (String × α)) (k : String) (v : α) :
    mapGet? (mapSet m k v) k = some v := by
  induction m with
  | nil => simp [mapSet, mapGet?]
  | cons p rest ih =>
      by_cases h : p.1 = k
      · simp [mapSet, h, mapGet?]
      · simp [mapSet, h, mapGet?, ih]

theorem mapHas_mapSet_self {α : Type} (m : List (String × α)) (k : String) (v : α) :
    mapHas (mapSet m k v) k = true := by
  simp [mapHas, mapGet?_mapSet_self]

theorem countP_set_balance {α : Type} (p : α → Bool) :
    ∀ (l : List α) (i : ℕ) (t t' : α), l.get? i = some t →
      (l.set i t').countP p + (if p t then 1 else 0)
        = l.countP p + (if p t' then 1 else 0) := by
  intro l
  induction l with
  | nil => intro i t t' h; simp at h
  | cons a l ih =>
      intro i t t' h
      cases i with
      | zero =>
          simp only [List.get?] at h
          cases h
          simp [List.set, List.countP_cons]
          omega
      | succ i =>
          simp only [List.get?] at h
          simp only [List.set, List.countP_cons]
          have := ih i t t' h
          omega

/-- **C7**: in continuous mode the theme index iterates `0, 1, …, M-1, 0, …`
over the `M = SEARCH_THEMES.length` search-required themes — after `k`
completed practices it equals `k % M`, so it wraps to 0 after the last
theme — and every theme in the rotation list has `requiresSearch` set. -/
theorem c7_continuous_rotation :
    (∀ k : ℕ, themeIndexSeq k = k % SEARCH_THEMES.length) ∧
    (∀ t : Theme, t ∈ SEARCH_THEMES → t.requiresSearch = some true) := by
  constructor
  · intro k
    induction k with
    | zero => simp [themeIndexSeq]
    | succ k ih =>
        show nextThemeIndex (themeIndexSeq k) = (k + 1) % SEARCH_THEMES.length
        rw [ih, nextThemeIndex, Nat.mod_add_mod]
  · intro t ht
    have h : SEARCH_THEMES.all (fun t => t.requiresSearch == some true) = true := by decide
    simpa using List.all_eq_true.mp h t ht

/-- Witness for C7: after 25 completions over the 12 search themes the index
is `25 % 12 = 1`, and the first search theme of the catalog is
search-required. -/
theorem c7_continuous_rotation_witness :
    themeIndexSeq 25 = 25 % SEARCH_THEMES.length ∧
    ({ id := "ai-global", name := "AI News (Global)", nameJa := "AI動向（国際）",
       description := "Global AI and machine learning news",
       requiresSearch := some true,
       searchQuery := some "OpenAI Anthropic Google DeepMind AI news today" } : Theme).requiresSearch
      = some true :=
  ⟨c7_continuous_rotation.1 25, c7_continuous_rotation.2 _ (by decide)⟩

/-- **C8**: the audio-cache key combines the exact text with the speed
rounded to two decimals — rates 1.004 and 1.001 both produce the key suffix
`"1.00"` for every text — and after a completed `getOrFetchTts` at 1.004,
a `getOrFetchTts` at 1.001 for the same text is a cache hit: the fetcher
has run once and the second caller receives the first caller's bytes. -/
theorem c8_key_rounding_cache_hit :
    (∀ text : String,
        getTtsKey text (mkRat 1004 1000) = text ++ "::" ++ "1.00" ∧
        getTtsKey text (mkRat 1001 1000) = text ++ "::" ++ "1.00") ∧
    (runSched
        [OpKind.getOrFetchTtsOp "Let us begin." (mkRat 1004 1000) (.ok 5),
         OpKind.getOrFetchTtsOp "Let us begin." (mkRat 1001 1000) (.ok 6)]
        [0, 0, 1]).cache.fetchTtsCount = 1 ∧
    (runSched
        [OpKind.getOrFetchTtsOp "Let us begin." (mkRat 1004 1000) (.ok 5),
         OpKind.getOrFetchTtsOp "Let us begin." (mkRat 1001 1000) (.ok 6)]
        [0, 0, 1]).calls.get? 1
      = some ⟨OpKind.getOrFetchTtsOp "Let us begin." (mkRat 1001 1000) (.ok 6),
              Pc.doneOk (some 5)⟩ := by
  refine ⟨fun text => ⟨?_, ?_⟩, by decide, by decide⟩
  · show text ++ "::" ++ toFixed2 (mkRat 1004 1000) = _
    rw [show toFixed2 (mkRat 1004 1000) = "1.00" by decide]
  · show text ++ "::" ++ toFixed2 (mkRat 1001 1000) = _
    rw [show toFixed2 (mkRat 1001 1000) = "1.00" by decide]

/-- **C1** as stated is FALSE: `getOrFetchTts` never records its own fetch
in `pendingTts`, so two concurrent on-demand calls that both miss the cache
each invoke the fetcher.  After the first call's opening segment its
request is outstanding (`inFlightTts = 1`), yet the second call's opening
segment starts a second fetch: two in-flight requests for the same key and
two fetcher invocations. -/
theorem c1_counterexample :
    (runSched
        [OpKind.getOrFetchTtsOp "t" (mkRat 1 1) (.ok 5),
         OpKind.getOrFetchTtsOp "t" (mkRat 1 1) (.ok 6)] [0]).cache.fetchTtsCount = 1 ∧
    (runSched
        [OpKind.getOrFetchTtsOp "t" (mkRat 1 1) (.ok 5),
         OpKind.getOrFetchTtsOp "t" (mkRat 1 1) (.ok 6)] [0]).calls.get? 0
      = some ⟨OpKind.getOrFetchTtsOp "t" (mkRat 1 1) (.ok 5), Pc.awaitOwnFetch⟩ ∧
    (runSched
        [OpKind.getOrFetchTtsOp "t" (mkRat 1 1) (.ok 5),
         OpKind.getOrFetchTtsOp "t" (mkRat 1 1) (.ok 6)] [0, 1]).cache.fetchTtsCount = 2 ∧
    (runSched
        [OpKind.getOrFetchTtsOp "t" (mkRat 1 1) (.ok 5),
         OpKind.getOrFetchTtsOp "t" (mkRat 1 1) (.ok 6)] [0, 1]).cache.inFlightTts = 2 := by
  decide

/-- **C4** as stated is FALSE: a `prefetchScript` fetch that is in flight
when `clearScriptCache` runs survives the invalidation (only the `scripts`
map is cleared, `pendingScripts` is untouched), completes, repopulates the
cache, and a subsequent `waitForScript` returns that pre-invalidation value
with no further fetcher invocation. -/
theorem c4_counterexample :
    (runCacheActs
        (initCacheSys [OpKind.prefetchScriptOp "News" (some 7),
                       OpKind.waitForScriptOp "News"])
        [CacheAct.run 0, CacheAct.clearScriptCacheAct "News",
         CacheAct.run 0, CacheAct.run 1]).cache.fetchScriptCount = 1 ∧
    (runCacheActs
        (initCacheSys [OpKind.prefetchScriptOp "News" (some 7),
                       OpKind.waitForScriptOp "News"])
        [CacheAct.run 0, CacheAct.clearScriptCacheAct "News",
         CacheAct.run 0, CacheAct.run 1]).cache.scripts = [("News", 7)] ∧
    (runCacheActs
        (initCacheSys [OpKind.prefetchScriptOp "News" (some 7),
                       OpKind.waitForScriptOp "News"])
        [CacheAct.run 0, CacheAct.clearScriptCacheAct "News",
         CacheAct.run 0, CacheAct.run 1]).calls.get? 1
      = some ⟨OpKind.waitForScriptOp "News", Pc.doneOk (some 7)⟩ := by
  decide

/-- **C9** as stated is FALSE for a failure while reading the response body:
`fetchTts` returns the `arrayBuffer()` promise from inside its `try` block
without `await`, so that rejection is not caught.  The prefetch rejects
before `pendingTts.delete` runs — the pending marker stays forever — and a
`getOrFetchTts` that awaits the stored pending promise rejects too: the
failure is thrown past the cache boundary instead of surfacing as `null`. -/
theorem c9_counterexample :
    (runSched
        [OpKind.prefetchTtsOp "t" (mkRat 1 1) .bodyError,
         OpKind.getOrFetchTtsOp "t" (mkRat 1 1) (.ok 9)] [0, 0, 1, 1]).calls.get? 0
      = some ⟨OpKind.prefetchTtsOp "t" (mkRat 1 1) .bodyError, Pc.doneRejected⟩ ∧
    (runSched
        [OpKind.prefetchTtsOp "t" (mkRat 1 1) .bodyError,
         OpKind.getOrFetchTtsOp "t" (mkRat 1 1) (.ok 9)] [0, 0, 1, 1]).calls.get? 1
      = some ⟨OpKind.getOrFetchTtsOp "t" (mkRat 1 1) (.ok 9), Pc.doneRejected⟩ ∧
    mapHas
      (runSched
        [OpKind.prefetchTtsOp "t" (mkRat 1 1) .bodyError,
         OpKind.getOrFetchTtsOp "t" (mkRat 1 1) (.ok 9)] [0, 0, 1, 1]).cache.pendingTts
      (getTtsKey "t" (mkRat 1 1)) = true ∧
    (runSched
        [OpKind.prefetchTtsOp "t" (mkRat 1 1) .bodyError,
         OpKind.getOrFetchTtsOp "t" (mkRat 1 1) (.ok 9)] [0, 0, 1, 1]).cache.tts = [] := by
  decide

theorem prefetch_calls_step (text : String) (rate : ℚ) (s : CacheSys) (i : ℕ)
    (hops : PrefetchCallsOnly text rate s.calls)
    (hinv : PrefetchInv (getTtsKey text rate) s) :
    PrefetchCallsOnly text rate (applyCacheAct s (CacheAct.run i)).calls ∧
    PrefetchInv (getTtsKey text rate) (applyCacheAct s (CacheAct.run i)) := by
  cases hget : s.calls.get? i with
  | none => simpa only [applyCacheAct, hget] using ⟨hops, hinv⟩
  | some t =>
      obtain ⟨r, hop⟩ := hops t (List.get?_mem hget)
      obtain ⟨op, pc⟩ := t
      simp only at hop
      subst hop
      obtain ⟨hflight, hle, hpendmark⟩ := hinv
      simp only [applyCacheAct, hget]
      have hops' : ∀ t'' : AsyncCall, (∃ r', t''.op = OpKind.prefetchTtsOp text rate r') →
          PrefetchCallsOnly text rate
            (s.calls.set i t'') := by
        intro t'' ht'' u hu
        rcases List.mem_or_eq_of_mem_set hu with h | h
        · exact hops u h
        · exact h ▸ ht''
      cases pc with
      | start =>
          by_cases hc : (mapHas s.cache.tts (getTtsKey text rate)
              || mapHas s.cache.pendingTts (getTtsKey text rate)) = true
          · -- already cached or pending: the call just returns
            have heq : stepCall s.cache ⟨OpKind.prefetchTtsOp text rate r, Pc.start⟩
                = (s.cache, ⟨OpKind.prefetchTtsOp text rate r, Pc.doneOk none⟩) := by
              simp [stepCall, hc]
            rw [heq]
            have hb := countP_set_balance isAwaitFetch s.calls i
              ⟨OpKind.prefetchTtsOp text rate r, Pc.start⟩
              ⟨OpKind.prefetchTtsOp text rate r, Pc.doneOk none⟩ hget
            simp [isAwaitFetch, pcIsAwait] at hb
            refine ⟨hops' _ ⟨r, rfl⟩, ?_, ?_, ?_⟩ <;>
              dsimp only <;> simp only [awaitFetchCount] at hflight hle hpendmark ⊢
            · omega
            · omega
            · intro hcon; exact hpendmark (by omega)
          · -- miss: the fetch is started and recorded in pendingTts
            have hpf : mapHas s.cache.pendingTts (getTtsKey text rate) = false := by
              cases h1 : mapHas s.cache.tts (getTtsKey text rate) <;>
                cases h2 : mapHas s.cache.pendingTts (getTtsKey text rate) <;>
                  simp_all
            have hzero : awaitFetchCount s.calls = 0 := by
              rcases Nat.eq_or_lt_of_le hle with h | h
              · exact absurd (hpendmark h) (by simp [hpf])
              · omega
            have heq : stepCall s.cache ⟨OpKind.prefetchTtsOp text rate r, Pc.start⟩
                = ({ s.cache with
                      pendingTts := mapSet s.cache.pendingTts (getTtsKey text rate) r,
                      fetchTtsCount := s.cache.fetchTtsCount + 1,
                      inFlightTts := s.cache.inFlightTts + 1 },
                   ⟨OpKind.prefetchTtsOp text rate r, Pc.awaitOwnFetch⟩) := by
              simp [stepCall, hc]
            rw [heq]
            have hb := countP_set_balance isAwaitFetch s.calls i
              ⟨OpKind.prefetchTtsOp text rate r, Pc.start⟩
              ⟨OpKind.prefetchTtsOp text rate r, Pc.awaitOwnFetch⟩ hget
            simp [isAwaitFetch, pcIsAwait] at hb
            refine ⟨hops' _ ⟨r, rfl⟩, ?_, ?_, ?_⟩ <;>
              dsimp only <;> simp only [awaitFetchCount] at hflight hzero ⊢
            · omega
            · omega
            · intro _; exact mapHas_mapSet_self _ _ _
      | awaitOwnFetch =>
          have hone : awaitFetchCount s.calls = 1 := by
            have hpos : 0 < awaitFetchCount s.calls :=
              List.countP_pos_iff.mpr
                ⟨_, List.get?_mem hget, by simp [isAwaitFetch, pcIsAwait]⟩
            omega
          have hbal : ∀ pc' : Pc, pcIsAwait pc' = false →
              (s.calls.set i ⟨OpKind.prefetchTtsOp text rate r, pc'⟩).countP isAwaitFetch = 0 := by
            intro pc' hpc'
            have hb := countP_set_balance isAwaitFetch s.calls i
              ⟨OpKind.prefetchTtsOp text rate r, Pc.awaitOwnFetch⟩
              ⟨OpKind.prefetchTtsOp text rate r, pc'⟩ hget
            simp only [isAwaitFetch] at hb
            simp only [hpc'] at hb
            simp only [pcIsAwait] at hb
            simp at hb
            simp only [awaitFetchCount] at hone
            omega
          cases r with
          | netError =>
              have heq : stepCall s.cache
                    ⟨OpKind.prefetchTtsOp text rate .netError, Pc.awaitOwnFetch⟩
                  = ({ s.cache with
                        inFlightTts := s.cache.inFlightTts - 1,
                        pendingTts := mapDel s.cache.pendingTts (getTtsKey text rate) },
                     ⟨OpKind.prefetchTtsOp text rate .netError, Pc.doneOk none⟩) := by
                simp [stepCall, fetchTts]
              rw [heq]
              refine ⟨hops' _ ⟨_, rfl⟩, ?_, ?_, ?_⟩ <;>
                dsimp only <;>
                  simp only [awaitFetchCount, hbal (Pc.doneOk none) rfl] at hone hflight ⊢ <;>
                omega
          | notOk =>
              have heq : stepCall s.cache
                    ⟨OpKind.prefetchTtsOp text rate .notOk, Pc.awaitOwnFetch⟩
                  = ({ s.cache with
                        inFlightTts := s.cache.inFlightTts - 1,
                        pendingTts := mapDel s.cache.pendingTts (getTtsKey text rate) },
                     ⟨OpKind.prefetchTtsOp text rate .notOk, Pc.doneOk none⟩) := by
                simp [stepCall, fetchTts]
              rw [heq]
              refine ⟨hops' _ ⟨_, rfl⟩, ?_, ?_, ?_⟩ <;>
                dsimp only <;>
                  simp only [awaitFetchCount, hbal (Pc.doneOk none) rfl] at hone hflight ⊢ <;>
                omega
          | bodyError =>
              have heq : stepCall s.cache
                    ⟨OpKind.prefetchTtsOp text rate .bodyError, Pc.awaitOwnFetch⟩
                  = ({ s.cache with inFlightTts := s.cache.inFlightTts - 1 },
                     ⟨OpKind.prefetchTtsOp text rate .bodyError, Pc.doneRejected⟩) := by
                simp [stepCall, fetchTts]
              rw [heq]
              refine ⟨hops' _ ⟨_, rfl⟩, ?_, ?_, ?_⟩ <;>
                dsimp only <;>
                  simp only [awaitFetchCount, hbal Pc.doneRejected rfl] at hone hflight ⊢ <;>
                omega
          | ok b =>
              have heq : stepCall s.cache
                    ⟨OpKind.prefetchTtsOp text rate (.ok b), Pc.awaitOwnFetch⟩
                  = ({ s.cache with
                        inFlightTts := s.cache.inFlightTts - 1,
                        pendingTts := mapDel s.cache.pendingTts (getTtsKey text rate),
                        tts := mapSet s.cache.tts (getTtsKey text rate) b },
                     ⟨OpKind.prefetchTtsOp text rate (.ok b), Pc.doneOk none⟩) := by
                simp [stepCall, fetchTts]
              rw [heq]
              refine ⟨hops' _ ⟨_, rfl⟩, ?_, ?_, ?_⟩ <;>
                dsimp only <;>
                  simp only [awaitFetchCount, hbal (Pc.doneOk none) rfl] at hone hflight ⊢ <;>
                omega
      | awaitPending =>
          have heq : stepCall s.cache ⟨OpKind.prefetchTtsOp text rate r, Pc.awaitPending⟩
              = (s.cache, ⟨OpKind.prefetchTtsOp text rate r, Pc.awaitPending⟩) := by
            simp [stepCall]
          rw [heq]
          have hb := countP_set_balance isAwaitFetch s.calls i
            ⟨OpKind.prefetchTtsOp text rate r, Pc.awaitPending⟩
            ⟨OpKind.prefetchTtsOp text rate r, Pc.awaitPending⟩ hget
          simp [isAwaitFetch, pcIsAwait] at hb
          refine ⟨hops' _ ⟨r, rfl⟩, ?_, ?_, ?_⟩ <;>
            dsimp only <;> simp only [awaitFetchCount] at hflight hle hpendmark ⊢
          · omega
          · omega
          · intro hcon; exact hpendmark (by omega)
      | doneOk res =>
          have heq : stepCall s.cache ⟨OpKind.prefetchTtsOp text rate r, Pc.doneOk res⟩
              = (s.cache, ⟨OpKind.prefetchTtsOp text rate r, Pc.doneOk res⟩) := by
            simp [stepCall]
          rw [heq]
          have hb := countP_set_balance isAwaitFetch s.calls i
            ⟨OpKind.prefetchTtsOp text rate r, Pc.doneOk res⟩
            ⟨OpKind.prefetchTtsOp text rate r, Pc.doneOk res⟩ hget
          simp [isAwaitFetch, pcIsAwait] at hb
          refine ⟨hops' _ ⟨r, rfl⟩, ?_, ?_, ?_⟩ <;>
            dsimp only <;> simp only [awaitFetchCount] at hflight hle hpendmark ⊢
          · omega
          · omega
          · intro hcon; exact hpendmark (by omega)
      | doneRejected =>
          have heq : stepCall s.cache ⟨OpKind.prefetchTtsOp text rate r, Pc.doneRejected⟩
              = (s.cache, ⟨OpKind.prefetchTtsOp text rate r, Pc.doneRejected⟩) := by
            simp [stepCall]
          rw [heq]
          have hb := countP_set_balance isAwaitFetch s.calls i
            ⟨OpKind.prefetchTtsOp text rate r, Pc.doneRejected⟩
            ⟨OpKind.prefetchTtsOp text rate r, Pc.doneRejected⟩ hget
          simp [isAwaitFetch, pcIsAwait] at hb
          refine ⟨hops' _ ⟨r, rfl⟩, ?_, ?_, ?_⟩ <;>
            dsimp only <;> simp only [awaitFetchCount] at hflight hle hpendmark ⊢
          · omega
          · omega
          · intro hcon; exact hpendmark (by omega)

theorem prefetch_inv_run (text : String) (rate : ℚ) :
    ∀ (sched : List ℕ) (s : CacheSys),
      PrefetchCallsOnly text rate s.calls →
      PrefetchInv (getTtsKey text rate) s →
      PrefetchInv (getTtsKey text rate) (runCacheActs s (sched.map CacheAct.run)) := by
  intro sched
  induction sched with
  | nil => intro s _ h2; exact h2
  | cons i rest ih =>
      intro s h1 h2
      have h := prefetch_calls_step text rate s i h1 h2
      simpa only [runCacheActs, List.map_cons, List.foldl_cons] using ih _ h.1 h.2

/-- **C1 (amended)**: single-flight holds for the prefetch path.  For any
number of concurrent `prefetchTts` calls for the same `(text, speed)` key,
under every interleaving at most one fetch for that key is in flight at any
time (the opening segment records the request in `pendingTts` and both
paths consult that marker first), and a `getOrFetchTts` that finds the key
cached or marked pending never invokes the fetcher.  (As `c1_counterexample`
shows, the original claim fails for two concurrent `getOrFetchTts` misses,
which do not register a pending marker.) -/
theorem c1_amended_single_flight :
    (∀ (text : String) (rate : ℚ) (rs : List FetchOutcome) (sched : List ℕ),
        (runSched (rs.map fun r => OpKind.prefetchTtsOp text rate r)
            sched).cache.inFlightTts ≤ 1) ∧
    (∀ (c : CacheState) (text : String) (rate : ℚ) (res : FetchOutcome),
        mapHas c.pendingTts (getTtsKey text rate) = true →
        (stepCall c ⟨OpKind.getOrFetchTtsOp text rate res, Pc.start⟩).1.fetchTtsCount
          = c.fetchTtsCount) := by
  constructor
  · intro text rate rs sched
    have h1 : PrefetchCallsOnly text rate
        (initCacheSys (rs.map fun r => OpKind.prefetchTtsOp text rate r)).calls := by
      intro t ht
      simp only [initCacheSys, List.map_map, List.mem_map] at ht
      obtain ⟨r, _, rfl⟩ := ht
      exact ⟨r, rfl⟩
    have h2 : PrefetchInv (getTtsKey text rate)
        (initCacheSys (rs.map fun r => OpKind.prefetchTtsOp text rate r)) := by
      have hz : awaitFetchCount
          (initCacheSys (rs.map fun r => OpKind.prefetchTtsOp text rate r)).calls = 0 := by
        rw [awaitFetchCount, List.countP_eq_zero]
        intro t ht
        simp only [initCacheSys, List.map_map, List.mem_map] at ht
        obtain ⟨r, _, rfl⟩ := ht
        simp [isAwaitFetch, pcIsAwait]
      refine ⟨by simpa [initCacheSys, emptyCache] using hz.symm, by omega, by omega⟩
    have h := prefetch_inv_run text rate sched _ h1 h2
    show (runCacheActs _ (sched.map CacheAct.run)).cache.inFlightTts ≤ 1
    rw [h.1]
    exact h.2.1
  · intro c text rate res hpend
    by_cases hc : mapHas c.tts (getTtsKey text rate) = true
    · simp [stepCall, hc]
    · simp [stepCall, hc, hpend]

/-- Witness for C1 (amended): a concrete pair of prefetch calls under a full
interleaving keeps at most one request in flight, and a `getOrFetchTts`
opening segment on a state whose key is pending invokes no fetch. -/
theorem c1_amended_single_flight_witness :
    (runSched ([FetchOutcome.ok 5, FetchOutcome.ok 6].map fun r =>
        OpKind.prefetchTtsOp "t" (mkRat 1 1) r) [0, 1, 0, 1]).cache.inFlightTts ≤ 1 ∧
    (stepCall
        { emptyCache with pendingTts := [(getTtsKey "t" (mkRat 1 1), FetchOutcome.ok 5)] }
        ⟨OpKind.getOrFetchTtsOp "t" (mkRat 1 1) (.ok 9), Pc.start⟩).1.fetchTtsCount
      = ({ emptyCache with
            pendingTts := [(getTtsKey "t" (mkRat 1 1), FetchOutcome.ok 5)] } :
          CacheState).fetchTtsCount :=
  ⟨c1_amended_single_flight.1 "t" (mkRat 1 1) [.ok 5, .ok 6] [0, 1, 0, 1],
   c1_amended_single_flight.2 _ "t" (mkRat 1 1) (.ok 9) (by decide)⟩

/-- **C4 (amended)**: invalidation followed by get-or-fetch re-invokes the
fetcher when no fetch for the key was in flight at the moment of
invalidation: after `clearTtsCache`, a `getOrFetchTts` whose key is not in
`pendingTts` starts a fresh fetch.  (A fetch that was in flight at
invalidation survives it, repopulates the cache on success, and a later
get-or-fetch may return that pre-invalidation value without re-invoking the
fetcher — `c4_counterexample`.) -/
theorem c4_amended_invalidate_refetch (c : CacheState) (text : String) (rate : ℚ)
    (res : FetchOutcome)
    (hnp : mapHas c.pendingTts (getTtsKey text rate) = false) :
    (stepCall { c with tts := [] }
        ⟨OpKind.getOrFetchTtsOp text rate res, Pc.start⟩).1.fetchTtsCount
      = c.fetchTtsCount + 1 ∧
    (stepCall { c with tts := [] }
        ⟨OpKind.getOrFetchTtsOp text rate res, Pc.start⟩).2.pc = Pc.awaitOwnFetch := by
  have hnp' : (mapGet? c.pendingTts (getTtsKey text rate)).isSome = false := by
    simpa [mapHas] using hnp
  constructor <;> simp [stepCall, mapHas, mapGet?, hnp']

/-- Witness for C4 (amended) at the empty cache. -/
theorem c4_amended_invalidate_refetch_witness :
    (stepCall { emptyCache with tts := [] }
        ⟨OpKind.getOrFetchTtsOp "t" (mkRat 1 1) (.ok 3), Pc.start⟩).1.fetchTtsCount
      = emptyCache.fetchTtsCount + 1 ∧
    (stepCall { emptyCache with tts := [] }
        ⟨OpKind.getOrFetchTtsOp "t" (mkRat 1 1) (.ok 3), Pc.start⟩).2.pc
      = Pc.awaitOwnFetch :=
  c4_amended_invalidate_refetch emptyCache "t" (mkRat 1 1) (.ok 3) (by decide)

/-- **C9 (amended)**: for the fetch failures that `fetchTts`'s `try`/`catch`
does catch — a rejected HTTP request (`netError`) or a non-OK response
(`notOk`) — the failed result is not stored, the pending marker is removed,
callers observe only `null` (no exception), and a later call for the same
key retries the fetch; the direct `getOrFetchTts` miss path likewise caches
nothing on failure and returns `null`.  (A rejection while reading the
response body escapes the `catch` — `c9_counterexample`.) -/
theorem c9_amended_caught_failures (text : String) (rate : ℚ) (o : FetchOutcome)
    (ho : o = FetchOutcome.netError ∨ o = FetchOutcome.notOk) :
    ((runSched [OpKind.prefetchTtsOp text rate o,
                OpKind.getOrFetchTtsOp text rate (.ok 9)] [0, 0]).calls.get? 0
        = some ⟨OpKind.prefetchTtsOp text rate o, Pc.doneOk none⟩) ∧
    (runSched [OpKind.prefetchTtsOp text rate o,
               OpKind.getOrFetchTtsOp text rate (.ok 9)] [0, 0]).cache.tts = [] ∧
    (runSched [OpKind.prefetchTtsOp text rate o,
               OpKind.getOrFetchTtsOp text rate (.ok 9)] [0, 0]).cache.pendingTts = [] ∧
    (runSched [OpKind.prefetchTtsOp text rate o,
               OpKind.getOrFetchTtsOp text rate (.ok 9)] [0, 0, 1]).cache.fetchTtsCount = 2 ∧
    ((runSched [OpKind.getOrFetchTtsOp text rate o] [0, 0]).calls.get? 0
        = some ⟨OpKind.getOrFetchTtsOp text rate o, Pc.doneOk none⟩) ∧
    (runSched [OpKind.getOrFetchTtsOp text rate o] [0, 0]).cache.tts = [] := by
  rcases ho with rfl | rfl <;>
    refine ⟨?_, ?_, ?_, ?_, ?_, ?_⟩ <;>
      simp [runSched, runCacheActs, initCacheSys, applyCacheAct, stepCall, fetchTts,
            mapHas, mapGet?, mapSet, mapDel, emptyCache]

/-- Witness for C9 (amended) at a concrete key and outcome. -/
theorem c9_amended_caught_failures_witness :
    ((runSched [OpKind.prefetchTtsOp "t" (mkRat 1 1) FetchOutcome.netError,
                OpKind.getOrFetchTtsOp "t" (mkRat 1 1) (.ok 9)] [0, 0]).calls.get? 0
        = some ⟨OpKind.prefetchTtsOp "t" (mkRat 1 1) FetchOutcome.netError, Pc.doneOk none⟩) ∧
    (runSched [OpKind.prefetchTtsOp "t" (mkRat 1 1) FetchOutcome.netError,
               OpKind.getOrFetchTtsOp "t" (mkRat 1 1) (.ok 9)]
        [0, 0, 1]).cache.fetchTtsCount = 2 :=
  ⟨(c9_amended_caught_failures "t" (mkRat 1 1) FetchOutcome.netError (Or.inl rfl)).1,
   (c9_amended_caught_failures "t" (mkRat 1 1) FetchOutcome.netError
      (Or.inl rfl)).2.2.2.1⟩

/-- **C2** as stated is FALSE: the spec scenario itself is the
counterexample.  A one-sentence script produces exactly ONE 3000 ms
shadow-pause wait before the transition to Completed — the pause after the
second play is skipped for the last sentence — not two. -/
theorem c2_counterexample :
    startAutoPlayTrace [⟨1, "Let us begin.", some "始めましょう。"⟩] (fun _ => true) false
      = [Event.synthStart 0, Event.play 0, Event.pause 3000, Event.play 0,
         Event.statusComplete, Event.pause 1000] ∧
    (startAutoPlayTrace [⟨1, "Let us begin.", some "始めましょう。"⟩]
        (fun _ => true) false).countP isShadowPause = 1 := by
  constructor <;> decide

theorem autoPlayFrom_all_ok (synthOk : ℕ → Bool) (hok : ∀ i, synthOk i = true) :
    ∀ (ss : List Sentence) (i : ℕ), (∀ s ∈ ss, s.text ≠ "") →
      autoPlayFrom i ss synthOk = (twoPassCadence i ss.length, true) := by
  intro ss
  induction ss with
  | nil => intro i _; rfl
  | cons s tail ih =>
      intro i hval
      have hs : s.text ≠ "" := hval s (by simp)
      have htail : ∀ u ∈ tail, u.text ≠ "" := fun u hu => hval u (by simp [hu])
      cases tail with
      | nil => simp [autoPlayFrom, hs, hok i, twoPassCadence]
      | cons s2 t2 =>
          have h2 := ih (i + 1) htail
          have hstep : autoPlayFrom i (s :: s2 :: t2) synthOk
              = (Event.synthStart i :: Event.play i :: Event.pause PAUSE_DURATION ::
                  Event.play i :: Event.pause PAUSE_DURATION ::
                  (autoPlayFrom (i + 1) (s2 :: t2) synthOk).1,
                 (autoPlayFrom (i + 1) (s2 :: t2) synthOk).2) := by
            simp [autoPlayFrom, hs, hok i]
          rw [hstep, h2]
          show (Event.synthStart i :: Event.play i :: Event.pause PAUSE_DURATION ::
                Event.play i :: Event.pause PAUSE_DURATION ::
                twoPassCadence (i + 1) (t2.length + 1), true)
              = (twoPassCadence i (t2.length + 2), true)
          simp [twoPassCadence]

theorem twoPassCadence_counts :
    ∀ (n i : ℕ),
      (twoPassCadence i n).countP isSynthEv = n ∧
      (twoPassCadence i n).countP isPlayEv = 2 * n ∧
      (twoPassCadence i n).countP isShadowPause = 2 * n - 1 := by
  intro n
  induction n with
  | zero => intro i; simp [twoPassCadence]
  | succ n ih =>
      intro i
      cases n with
      | zero =>
          simp [twoPassCadence, List.countP_cons, isSynthEv, isPlayEv, isShadowPause,
                PAUSE_DURATION]
      | succ m =>
          have h := ih (i + 1)
          simp only [twoPassCadence, List.countP_append, List.countP_cons, h.1, h.2.1,
            h.2.2, isSynthEv, isPlayEv, isShadowPause, PAUSE_DURATION]
          refine ⟨by simp; omega, by simp; omega, by simp; omega⟩

/-- **C2 (amended)**: an uninterrupted auto-play run over N valid sentences
invokes synthesis exactly N times and the play step exactly 2N times, with
the shadow pauses strictly interleaved `synthesize, play, pause, play` and a
pause before each NEXT sentence — so 2N-1 shadow pauses of 3000 ms, not 2N:
the final sentence has no trailing pause.  The run then announces Completed
and waits 1000 ms.  An unpaused 3000 ms wait resolves after exactly 30 of
its 100 ms ticks. -/
theorem c2_amended_cadence (ss : List Sentence) (synthOk : ℕ → Bool)
    (hval : ∀ s ∈ ss, s.text ≠ "") (hok : ∀ i, synthOk i = true) :
    startAutoPlayTrace ss synthOk false
      = twoPassCadence 0 ss.length ++ [Event.statusComplete, Event.pause 1000] ∧
    (startAutoPlayTrace ss synthOk false).countP isSynthEv = ss.length ∧
    (startAutoPlayTrace ss synthOk false).countP isPlayEv = 2 * ss.length ∧
    (startAutoPlayTrace ss synthOk false).countP isShadowPause = 2 * ss.length - 1 ∧
    waitRun PAUSE_DURATION 0 (List.replicate 30 ⟨false, false⟩)
      = WaitStatus.resolvedOut 3000 := by
  have h := autoPlayFrom_all_ok synthOk hok ss 0 hval
  have htr : startAutoPlayTrace ss synthOk false
      = twoPassCadence 0 ss.length ++ [Event.statusComplete, Event.pause 1000] := by
    simp [startAutoPlayTrace, h]
  have hc := twoPassCadence_counts ss.length 0
  refine ⟨htr, ?_, ?_, ?_, by decide⟩ <;> rw [htr] <;>
    simp [List.countP_append, List.countP_cons, hc.1, hc.2.1, hc.2.2,
          isSynthEv, isPlayEv, isShadowPause, PAUSE_DURATION]

/-- Witness for C2 (amended) at the spec scenario script. -/
theorem c2_amended_cadence_witness :
    startAutoPlayTrace [⟨1, "Let us begin.", some "始めましょう。"⟩] (fun _ => true) false
      = twoPassCadence 0 1 ++ [Event.statusComplete, Event.pause 1000] ∧
    (startAutoPlayTrace [⟨1, "Let us begin.", some "始めましょう。"⟩]
        (fun _ => true) false).countP isShadowPause = 2 * 1 - 1 :=
  ⟨(c2_amended_cadence [⟨1, "Let us begin.", some "始めましょう。"⟩] (fun _ => true)
      (by decide) (fun _ => rfl)).1,
   (c2_amended_cadence [⟨1, "Let us begin.", some "始めましょう。"⟩] (fun _ => true)
      (by decide) (fun _ => rfl)).2.2.2.1⟩

/-- **C3** as stated is FALSE: when synthesis fails for sentence 0 of a
two-sentence script, the run does not continue with sentence 1 — the
exception thrown by `synthesizeSpeech` is caught by the `catch` around the
whole loop, which logs it and ends the run: no playback for sentence 0, no
events at all for sentence 1, no completion. -/
theorem c3_counterexample :
    startAutoPlayTrace [⟨1, "One.", none⟩, ⟨2, "Two.", none⟩] (fun i => i != 0) false
      = [Event.synthStart 0, Event.errorLog] ∧
    Event.play 0 ∉
      startAutoPlayTrace [⟨1, "One.", none⟩, ⟨2, "Two.", none⟩] (fun i => i != 0) false ∧
    Event.synthStart 1 ∉
      startAutoPlayTrace [⟨1, "One.", none⟩, ⟨2, "Two.", none⟩] (fun i => i != 0) false ∧
    Event.statusComplete ∉
      startAutoPlayTrace [⟨1, "One.", none⟩, ⟨2, "Two.", none⟩] (fun i => i != 0) false := by
  refine ⟨by decide, by decide, by decide, by decide⟩

theorem autoPlayFrom_events_shape :
    ∀ (ss : List Sentence) (i : ℕ) (synthOk : ℕ → Bool) (e : Event),
      e ∈ (autoPlayFrom i ss synthOk).1 →
      (∃ j, e = Event.synthStart j ∨ e = Event.play j) ∨ e = Event.pause PAUSE_DURATION := by
  intro ss
  induction ss with
  | nil => intro i ok e he; simp [autoPlayFrom] at he
  | cons s tail ih =>
      intro i ok e he
      by_cases hs : s.text = ""
      · exact ih (i + 1) ok e (by simpa [autoPlayFrom, hs] using he)
      · by_cases hok : ok i = true
        · cases tail with
          | nil =>
              simp [autoPlayFrom, hs, hok] at he
              rcases he with h | h | h | h
              · exact Or.inl ⟨i, Or.inl h⟩
              · exact Or.inl ⟨i, Or.inr h⟩
              · exact Or.inr h
              · exact Or.inl ⟨i, Or.inr h⟩
          | cons s2 t2 =>
              simp [autoPlayFrom, hs, hok] at he
              rcases he with h | h | h | h | h | h
              · exact Or.inl ⟨i, Or.inl h⟩
              · exact Or.inl ⟨i, Or.inr h⟩
              · exact Or.inr h
              · exact Or.inl ⟨i, Or.inr h⟩
              · exact Or.inr h
              · exact ih (i + 1) ok e h
        · cases tail with
          | nil =>
              simp [autoPlayFrom, hs, hok] at he
              exact Or.inl ⟨i, Or.inl he⟩
          | cons s2 t2 =>
              simp [autoPlayFrom, hs, hok] at he
              exact Or.inl ⟨i, Or.inl he⟩

theorem autoPlayFrom_fail_last :
    ∀ (ss : List Sentence) (i : ℕ) (synthOk : ℕ → Bool),
      (autoPlayFrom i ss synthOk).2 = false →
      ∃ j, i ≤ j ∧ synthOk j = false ∧
        (autoPlayFrom i ss synthOk).1.getLast? = some (Event.synthStart j) ∧
        Event.play j ∉ (autoPlayFrom i ss synthOk).1 := by
  intro ss
  induction ss with
  | nil => intro i ok h; simp [autoPlayFrom] at h
  | cons s tail ih =>
      intro i ok h
      by_cases hs : s.text = ""
      · obtain ⟨j, hj, hokj, hlast, hnp⟩ :=
          ih (i + 1) ok (by simpa [autoPlayFrom, hs] using h)
        exact ⟨j, by omega, hokj, by simpa [autoPlayFrom, hs] using hlast,
               by simpa [autoPlayFrom, hs] using hnp⟩
      · by_cases hok : ok i = true
        · have hflag : (autoPlayFrom (i + 1) tail ok).2 = false := by
            cases tail <;> (simp [autoPlayFrom, hs, hok] at h; try exact h)
          obtain ⟨j, hj, hokj, hlast, hnp⟩ := ih (i + 1) ok hflag
          refine ⟨j, by omega, hokj, ?_, ?_⟩
          · cases tail with
            | nil =>
                rw [show (autoPlayFrom i [s] ok).1
                    = [Event.synthStart i, Event.play i, Event.pause PAUSE_DURATION,
                       Event.play i] ++ (autoPlayFrom (i + 1) [] ok).1 from by
                  simp [autoPlayFrom, hs, hok]]
                rw [List.getLast?_append, hlast]
                rfl
            | cons s2 t2 =>
                rw [show (autoPlayFrom i (s :: s2 :: t2) ok).1
                    = [Event.synthStart i, Event.play i, Event.pause PAUSE_DURATION,
                       Event.play i, Event.pause PAUSE_DURATION]
                        ++ (autoPlayFrom (i + 1) (s2 :: t2) ok).1 from by
                  simp [autoPlayFrom, hs, hok]]
                rw [List.getLast?_append, hlast]
                rfl
          · cases tail with
            | nil =>
                rw [show (autoPlayFrom i [s] ok).1
                    = [Event.synthStart i, Event.play i, Event.pause PAUSE_DURATION,
                       Event.play i] ++ (autoPlayFrom (i + 1) [] ok).1 from by
                  simp [autoPlayFrom, hs, hok]]
                intro hmem
                rcases List.mem_append.mp hmem with hmem | hmem
                · simp at hmem
                  omega
                · exact hnp hmem
            | cons s2 t2 =>
                rw [show (autoPlayFrom i (s :: s2 :: t2) ok).1
                    = [Event.synthStart i, Event.play i, Event.pause PAUSE_DURATION,
                       Event.play i, Event.pause PAUSE_DURATION]
                        ++ (autoPlayFrom (i + 1) (s2 :: t2) ok).1 from by
                  simp [autoPlayFrom, hs, hok]]
                intro hmem
                rcases List.mem_append.mp hmem with hmem | hmem
                · simp at hmem
                  omega
                · exact hnp hmem
        · refine ⟨i, le_refl i, by simp at hok; exact hok, ?_, ?_⟩ <;>
            · rw [show (autoPlayFrom i (s :: tail) ok).1 = [Event.synthStart i] from by
                cases tail <;> simp [autoPlayFrom, hs, hok]]
              simp

/-- **C3 (amended)**: when audio synthesis fails for a sentence, the
exception is caught and logged by the run's error handler, but the run is
aborted at that sentence rather than continuing: the trace ends with the
failing sentence's synthesis start (its playback phases are skipped and no
later sentence is reached), no completion is announced, and nothing escapes
`startAutoPlay` (the caught run appends only the error log). -/
theorem c3_amended_failure_ends_run (ss : List Sentence) (synthOk : ℕ → Bool) (cm : Bool)
    (hfail : (autoPlayFrom 0 ss synthOk).2 = false) :
    startAutoPlayTrace ss synthOk cm = (autoPlayFrom 0 ss synthOk).1 ++ [Event.errorLog] ∧
    Event.errorLog ∈ startAutoPlayTrace ss synthOk cm ∧
    Event.statusComplete ∉ startAutoPlayTrace ss synthOk cm ∧
    Event.practiceComplete ∉ startAutoPlayTrace ss synthOk cm ∧
    ∃ j, synthOk j = false ∧
      (autoPlayFrom 0 ss synthOk).1.getLast? = some (Event.synthStart j) ∧
      Event.play j ∉ (autoPlayFrom 0 ss synthOk).1 := by
  have htr : startAutoPlayTrace ss synthOk cm
      = (autoPlayFrom 0 ss synthOk).1 ++ [Event.errorLog] := by
    unfold startAutoPlayTrace
    rcases hE : autoPlayFrom 0 ss synthOk with ⟨evs, flag⟩
    rw [hE] at hfail
    simp only at hfail
    subst hfail
    rfl
  have hshape := autoPlayFrom_events_shape ss 0 synthOk
  obtain ⟨j, _, hokj, hlast, hnp⟩ := autoPlayFrom_fail_last ss 0 synthOk hfail
  refine ⟨htr, by simp [htr], ?_, ?_, j, hokj, hlast, hnp⟩ <;>
    · rw [htr]
      intro hmem
      rcases List.mem_append.mp hmem with hmem | hmem
      · rcases hshape _ hmem with ⟨m, h | h⟩ | h <;> simp at h
      · simp at hmem

/-- Witness for C3 (amended): the two-sentence script whose first synthesis
fails. -/
theorem c3_amended_failure_ends_run_witness :
    startAutoPlayTrace [⟨1, "One.", none⟩, ⟨2, "Two.", none⟩] (fun i => i != 0) false
      = (autoPlayFrom 0 [⟨1, "One.", none⟩, ⟨2, "Two.", none⟩] (fun i => i != 0)).1
          ++ [Event.errorLog] ∧
    Event.statusComplete ∉
      startAutoPlayTrace [⟨1, "One.", none⟩, ⟨2, "Two.", none⟩] (fun i => i != 0) false :=
  ⟨(c3_amended_failure_ends_run [⟨1, "One.", none⟩, ⟨2, "Two.", none⟩]
      (fun i => i != 0) false (by decide)).1,
   (c3_amended_failure_ends_run [⟨1, "One.", none⟩, ⟨2, "Two.", none⟩]
      (fun i => i != 0) false (by decide)).2.2.1⟩

theorem take_cons4 {α : Type} (a b c d : α) (m : ℕ) :
    List.take (m + 4) [a, b, c, d] = [a, b, c, d] := by
  show a :: b :: c :: d :: List.take m [] = _
  rw [List.take_nil]

theorem take_cons5_append {α : Type} (a b c d e : α) (l : List α) (m : ℕ) :
    List.take (m + 5) (a :: b :: c :: d :: e :: l)
      = a :: b :: c :: d :: e :: List.take m l := rfl

theorem autoPlayAbort_take (synthOk : ℕ → Bool) (hok : ∀ i, synthOk i = true) :
    ∀ (ss : List Sentence) (i fuel : ℕ),
      (autoPlayAbortFrom i ss synthOk fuel).1 = (autoPlayFrom i ss synthOk).1.take fuel ∧
      (autoPlayAbortFrom i ss synthOk fuel).2.1
        = fuel - (autoPlayFrom i ss synthOk).1.length ∧
      (autoPlayAbortFrom i ss synthOk fuel).2.2 = true := by
  intro ss
  induction ss with
  | nil => intro i fuel; simp [autoPlayAbortFrom, autoPlayFrom]
  | cons s tail ih =>
      intro i fuel
      cases fuel with
      | zero => simp [autoPlayAbortFrom]
      | succ f =>
          by_cases hs : s.text = ""
          · have e1 : autoPlayAbortFrom i (s :: tail) synthOk (f + 1)
                = autoPlayAbortFrom (i + 1) tail synthOk (f + 1) := by
              simp [autoPlayAbortFrom, hs]
            have e2 : autoPlayFrom i (s :: tail) synthOk
                = autoPlayFrom (i + 1) tail synthOk := by
              simp [autoPlayFrom, hs]
            rw [e1, e2]
            exact ih (i + 1) (f + 1)
          · have hoki := hok i
            cases tail with
            | nil =>
                have e2 : autoPlayFrom i [s] synthOk
                    = ([Event.synthStart i, Event.play i, Event.pause PAUSE_DURATION,
                        Event.play i], true) := by
                  simp [autoPlayFrom, hs, hoki]
                rw [e2]
                match f with
                | 0 =>
                    have e1 : autoPlayAbortFrom i [s] synthOk 1
                        = ([Event.synthStart i], 0, true) := by
                      simp [autoPlayAbortFrom, hs, hoki]
                    rw [e1]
                    exact ⟨rfl, rfl, rfl⟩
                | 1 =>
                    have e1 : autoPlayAbortFrom i [s] synthOk 2
                        = ([Event.synthStart i, Event.play i], 0, true) := by
                      simp [autoPlayAbortFrom, hs, hoki]
                    rw [e1]
                    exact ⟨rfl, rfl, rfl⟩
                | 2 =>
                    have e1 : autoPlayAbortFrom i [s] synthOk 3
                        = ([Event.synthStart i, Event.play i,
                            Event.pause PAUSE_DURATION], 0, true) := by
                      simp [autoPlayAbortFrom, hs, hoki]
                    rw [e1]
                    exact ⟨rfl, rfl, rfl⟩
                | f3 + 3 =>
                    have e1 : autoPlayAbortFrom i [s] synthOk (f3 + 3 + 1)
                        = ([Event.synthStart i, Event.play i, Event.pause PAUSE_DURATION,
                            Event.play i], f3, true) := by
                      simp [autoPlayAbortFrom, hs, hoki]
                    rw [e1]
                    refine ⟨?_, ?_, rfl⟩
                    · rw [show f3 + 3 + 1 = f3 + 4 from rfl, take_cons4]
                    · simp
            | cons s2 t2 =>
                have e2 : autoPlayFrom i (s :: s2 :: t2) synthOk
                    = (Event.synthStart i :: Event.play i :: Event.pause PAUSE_DURATION ::
                        Event.play i :: Event.pause PAUSE_DURATION ::
                        (autoPlayFrom (i + 1) (s2 :: t2) synthOk).1,
                       (autoPlayFrom (i + 1) (s2 :: t2) synthOk).2) := by
                  simp [autoPlayFrom, hs, hoki]
                rw [e2]
                match f with
                | 0 =>
                    have e1 : autoPlayAbortFrom i (s :: s2 :: t2) synthOk 1
                        = ([Event.synthStart i], 0, true) := by
                      simp [autoPlayAbortFrom, hs, hoki]
                    rw [e1]
                    refine ⟨rfl, ?_, rfl⟩
                    simp
                | 1 =>
                    have e1 : autoPlayAbortFrom i (s :: s2 :: t2) synthOk 2
                        = ([Event.synthStart i, Event.play i], 0, true) := by
                      simp [autoPlayAbortFrom, hs, hoki]
                    rw [e1]
                    refine ⟨rfl, ?_, rfl⟩
                    simp
                | 2 =>
                    have e1 : autoPlayAbortFrom i (s :: s2 :: t2) synthOk 3
                        = ([Event.synthStart i, Event.play i,
                            Event.pause PAUSE_DURATION], 0, true) := by
                      simp [autoPlayAbortFrom, hs, hoki]
                    rw [e1]
                    refine ⟨rfl, ?_, rfl⟩
                    simp
                | 3 =>
                    have e1 : autoPlayAbortFrom i (s :: s2 :: t2) synthOk 4
                        = ([Event.synthStart i, Event.play i, Event.pause PAUSE_DURATION,
                            Event.play i], 0, true) := by
                      simp [autoPlayAbortFrom, hs, hoki]
                    rw [e1]
                    refine ⟨rfl, ?_, rfl⟩
                    simp
                | f4 + 4 =>
                    have hrec := ih (i + 1) f4
                    have e1 : autoPlayAbortFrom i (s :: s2 :: t2) synthOk (f4 + 4 + 1)
                        = (Event.synthStart i :: Event.play i :: Event.pause PAUSE_DURATION ::
                            Event.play i :: Event.pause PAUSE_DURATION ::
                            (autoPlayAbortFrom (i + 1) (s2 :: t2) synthOk f4).1,
                           (autoPlayAbortFrom (i + 1) (s2 :: t2) synthOk f4).2) := by
                      simp [autoPlayAbortFrom, hs, hoki]
                    rw [e1]
                    refine ⟨?_, ?_, hrec.2.2⟩
                    · rw [show f4 + 4 + 1 = f4 + 5 from rfl, take_cons5_append, hrec.1]
                    · rw [hrec.2.1]
                      simp [List.length_cons]

/-- **C5**: calling `stopAutoPlay` during a run (the abort controller
exists) synchronously silences the shared audio element and fires the abort
signal; an in-flight `wait` resolves at its very next tick without
advancing its clock; an in-flight `playAudioAndWait` resolves at its next
monitor tick, issuing no further engine commands (nor on a late readiness
event); and once the abort is observed after `n` completed awaits, the run
emits exactly the first `n` events of the uninterrupted trace — no further
state transitions and no completion status. -/
theorem c5_stop_settles :
    (∀ s : UiState, s.hasController = true →
        (stopAutoPlay s).audioPlaying = false ∧ (stopAutoPlay s).aborted = true) ∧
    (∀ (ms e : ℕ) (p : Bool) (rest : List TickIn),
        waitRun ms e (⟨true, p⟩ :: rest) = WaitStatus.resolvedOut e) ∧
    (∀ (st : PmState) (p : Bool),
        (pmStep st (PmEvent.tickE p true)).1.resolvedFlag = true ∧
        (pmStep st (PmEvent.tickE p true)).2 = [] ∧
        (pmStep st (PmEvent.readyE p true)).2 = []) ∧
    (∀ (ss : List Sentence) (synthOk : ℕ → Bool) (cm : Bool) (n : ℕ),
        (∀ i, synthOk i = true) →
        n ≤ (autoPlayFrom 0 ss synthOk).1.length →
        startAutoPlayAborted ss synthOk cm n = (autoPlayFrom 0 ss synthOk).1.take n ∧
        (startAutoPlayAborted ss synthOk cm n).length ≤ n ∧
        Event.statusComplete ∉ startAutoPlayAborted ss synthOk cm n ∧
        Event.practiceComplete ∉ startAutoPlayAborted ss synthOk cm n) := by
  refine ⟨?_, ?_, ?_, ?_⟩
  · intro s h
    simp [stopAutoPlay, h]
  · intro ms e p rest
    simp [waitRun, waitTick]
  · intro st p
    refine ⟨?_, ?_, ?_⟩
    · simp [pmStep, pmCleanup]
      split <;> simp_all
    · simp [pmStep]
    · simp [pmStep, pmTryPlay, pmCleanup]
      split <;> simp_all
  · intro ss synthOk cm n hok hn
    have h := autoPlayAbort_take synthOk hok ss 0 n
    have hz : (autoPlayAbortFrom 0 ss synthOk n).2.1 = 0 := by
      rw [h.2.1]; omega
    have htr : startAutoPlayAborted ss synthOk cm n
        = (autoPlayAbortFrom 0 ss synthOk n).1 := by
      unfold startAutoPlayAborted
      rcases hE : autoPlayAbortFrom 0 ss synthOk n with ⟨evs, fl, fg⟩
      rw [hE] at hz
      simp only at hz
      subst hz
      rfl
    have hsub : startAutoPlayAborted ss synthOk cm n ⊆ (autoPlayFrom 0 ss synthOk).1 := by
      rw [htr, h.1]
      exact List.take_subset _ _
    refine ⟨by rw [htr, h.1], ?_, ?_, ?_⟩
    · rw [htr, h.1]
      simp [List.length_take]
    · intro hmem
      rcases autoPlayFrom_events_shape ss 0 synthOk _ (hsub hmem) with ⟨m, hm | hm⟩ | hm <;>
        simp at hm
    · intro hmem
      rcases autoPlayFrom_events_shape ss 0 synthOk _ (hsub hmem) with ⟨m, hm | hm⟩ | hm <;>
        simp at hm

/-- Witness for C5 at concrete inputs: a stopped concrete component state, a
wait aborted mid-flight, a concrete playback-machine state, and an abort
observed after 6 of the 9 awaits of a two-sentence run. -/
theorem c5_stop_settles_witness :
    (stopAutoPlay
        ⟨1, 1, true, false, false, "Playing sentence 2 (1st time)", true, false, true,
         false, true, false⟩).audioPlaying = false ∧
    waitRun 3000 700 [⟨true, false⟩, ⟨false, false⟩] = WaitStatus.resolvedOut 700 ∧
    (pmStep (pmInit false) (PmEvent.tickE false true)).1.resolvedFlag = true ∧
    startAutoPlayAborted [⟨1, "One.", none⟩, ⟨2, "Two.", none⟩] (fun _ => true) false 6
      = (autoPlayFrom 0 [⟨1, "One.", none⟩, ⟨2, "Two.", none⟩] (fun _ => true)).1.take 6 :=
  ⟨(c5_stop_settles.1 _ rfl).1,
   c5_stop_settles.2.1 3000 700 false [⟨false, false⟩],
   (c5_stop_settles.2.2.1 (pmInit false) false).1,
   (c5_stop_settles.2.2.2 [⟨1, "One.", none⟩, ⟨2, "Two.", none⟩] (fun _ => true) false 6
      (fun _ => rfl) (by decide)).1⟩

theorem waitRun_paused_frozen :
    ∀ (ts : List TickIn), (∀ t ∈ ts, t.aborted = false ∧ t.paused = true) →
      ∀ (ms e : ℕ) (rest : List TickIn),
        waitRun ms e (ts ++ rest) = waitRun ms e rest := by
  intro ts
  induction ts with
  | nil => intro _ ms e rest; rfl
  | cons t ts ih =>
      intro h ms e rest
      obtain ⟨ha, hp⟩ := h t (by simp)
      have hstep : waitRun ms e ((t :: ts) ++ rest) = waitRun ms e (ts ++ rest) := by
        simp [waitRun, waitTick, ha, hp]
      rw [hstep]
      exact ih (fun u hu => h u (by simp [hu])) ms e rest

theorem pmCleanup_started (st : PmState) :
    (pmCleanup st).hasStartedPlaying = st.hasStartedPlaying := by
  simp only [pmCleanup]
  split <;> rfl

theorem pmCleanup_resolvedFlag (st : PmState) : (pmCleanup st).resolvedFlag = true := by
  simp only [pmCleanup]
  split <;> simp_all

theorem pmTryPlay_start_balance (p a : Bool) (st : PmState) :
    (pmTryPlay p a st).2.countP (fun x => x == PmAction.startPlayA)
        + (if st.hasStartedPlaying then 1 else 0)
      ≤ (if (pmTryPlay p a st).1.hasStartedPlaying then 1 else 0) := by
  unfold pmTryPlay pmCleanup
  split_ifs <;> simp_all

theorem pmStep_start_balance (st : PmState) (e : PmEvent)
    (hne : e ≠ PmEvent.playFailedE) :
    (pmStep st e).2.countP (fun x => x == PmAction.startPlayA)
        + (if st.hasStartedPlaying then 1 else 0)
      ≤ (if (pmStep st e).1.hasStartedPlaying then 1 else 0) := by
  cases e with
  | playFailedE => exact absurd rfl hne
  | endedE =>
      simp only [pmStep, pmCleanup]
      split_ifs <;> simp_all
  | errorE =>
      simp only [pmStep, pmCleanup]
      split_ifs <;> simp_all
  | overallTimeoutE =>
      simp only [pmStep, pmCleanup]
      split_ifs <;> simp_all
  | readyE p a =>
      simp only [pmStep]
      by_cases h1 : (!st.hasStartedPlaying && !st.resolvedFlag) = true
      · simpa [h1] using pmTryPlay_start_balance p a st
      · simp [h1]
  | loadTimeoutE rs2 p a =>
      simp only [pmStep]
      by_cases h1 : (!st.hasStartedPlaying && !st.resolvedFlag && rs2) = true
      · simpa [h1] using pmTryPlay_start_balance p a st
      · by_cases h2 : (!st.hasStartedPlaying && !st.resolvedFlag) = true
        · simpa [h1, h2] using pmTryPlay_start_balance p a st
        · simp [h1, h2]
  | tickE p a =>
      simp only [pmStep]
      by_cases ha : a = true
      · simp [ha, pmCleanup_started]
      · by_cases hr : st.resolvedFlag = true
        · simp [ha, hr]
        · by_cases hpw : (p && !st.wasPaused) = true
          · by_cases hap : (st.audioPlaying && st.hasStartedPlaying) = true
            · simp_all
            · simp [ha, hr, hpw, hap]
          · by_cases hrw : (!p && st.wasPaused) = true
            · by_cases hrdy : (st.readyToPlay && !st.hasStartedPlaying) = true
              · simpa [ha, hr, hpw, hrw, hrdy] using pmTryPlay_start_balance p a st
              · by_cases hres :
                    (st.hasStartedPlaying && !st.audioPlaying && !st.audioEnded) = true
                · simp_all
                · simp [ha, hr, hpw, hrw, hrdy, hres]
            · simp [ha, hr, hpw, hrw]

theorem pmRun_start_balance :
    ∀ (evs : List PmEvent) (st : PmState),
      (∀ e ∈ evs, e ≠ PmEvent.playFailedE) →
      (pmRun st evs).2.countP (fun x => x == PmAction.startPlayA)
          + (if st.hasStartedPlaying then 1 else 0)
        ≤ (if (pmRun st evs).1.hasStartedPlaying then 1 else 0) := by
  intro evs
  induction evs with
  | nil => intro st _; simp [pmRun]
  | cons e evs ih =>
      intro st h
      have h1 := pmStep_start_balance st e (h e (by simp))
      have h2 := ih (pmStep st e).1 (fun u hu => h u (by simp [hu]))
      simp only [pmRun, List.countP_append]
      omega

/-- **C6**: while the run is paused the shadow-pause wait's clock is frozen
— any block of paused ticks leaves the wait exactly where it was, so it
resumes counting from the same elapsed value; `pauseAutoPlay` followed by
`resumeAutoPlay` returns to the same sentence index with the abort signal
untouched (same sentence and phase, nothing skipped), pausing silences the
audio and resuming clears the pause flag; and the playback machine never
starts a clip more than once in a run without play-rejections, so a
pause/resume cycle cannot repeat a playback. -/
theorem c6_pause_resume_integrity :
    (∀ (ts : List TickIn), (∀ t ∈ ts, t.aborted = false ∧ t.paused = true) →
        ∀ (ms e : ℕ) (rest : List TickIn),
          waitRun ms e (ts ++ rest) = waitRun ms e rest) ∧
    (∀ s : UiState,
        (pauseAutoPlay s).currentIndex = s.currentIndex ∧
        (pauseAutoPlay s).aborted = s.aborted ∧
        (resumeAutoPlay (pauseAutoPlay s)).currentIndex = s.currentIndex ∧
        (resumeAutoPlay (pauseAutoPlay s)).aborted = s.aborted ∧
        (pauseAutoPlay s).audioPlaying = false ∧
        (pauseAutoPlay s).isPausedRef = true ∧
        (resumeAutoPlay (pauseAutoPlay s)).isPausedRef = false) ∧
    (∀ (evs : List PmEvent) (initPaused : Bool),
        (∀ e ∈ evs, e ≠ PmEvent.playFailedE) →
        (pmRun (pmInit initPaused) evs).2.countP
            (fun x => x == PmAction.startPlayA) ≤ 1) := by
  refine ⟨waitRun_paused_frozen, ?_, ?_⟩
  · intro s
    by_cases hap : s.audioPlaying = true <;>
      by_cases hae : s.audioEnded = true <;>
        by_cases hsrc : s.audioHasSrc = true <;>
          simp [pauseAutoPlay, resumeAutoPlay, hap, hae, hsrc]
  · intro evs initPaused h
    have hb := pmRun_start_balance evs (pmInit initPaused) h
    have h0 : (if (pmInit initPaused).hasStartedPlaying then 1 else 0) = 0 := rfl
    have h1 : (if (pmRun (pmInit initPaused) evs).1.hasStartedPlaying then 1 else 0)
        ≤ 1 := by split <;> simp
    omega

/-- Witness for C6: two paused ticks freeze a 3000 ms wait at 500 ms
elapsed, and a ready/pause/resume event run starts playback exactly once. -/
theorem c6_pause_resume_integrity_witness :
    waitRun 3000 500 ([⟨false, true⟩, ⟨false, true⟩] ++ [⟨false, false⟩])
      = waitRun 3000 500 [⟨false, false⟩] ∧
    (pmRun (pmInit false)
        [PmEvent.readyE false false, PmEvent.tickE true false,
         PmEvent.tickE false false]).2.countP
        (fun x => x == PmAction.startPlayA) ≤ 1 :=
  ⟨c6_pause_resume_integrity.1 [⟨false, true⟩, ⟨false, true⟩] (by decide) 3000 500
      [⟨false, false⟩],
   c6_pause_resume_integrity.2.2
      [PmEvent.readyE false false, PmEvent.tickE true false, PmEvent.tickE false false]
      false (by decide)⟩

theorem pmStep_no_reject (st : PmState) (e : PmEvent)
    (h : st.settled ≠ some PromiseOutcome.rejectedP) :
    (pmStep st e).1.settled ≠ some PromiseOutcome.rejectedP := by
  cases e <;>
    · simp only [pmStep, pmCleanup, pmTryPlay]
      (try split_ifs) <;> simp_all

theorem pmRun_no_reject :
    ∀ (evs : List PmEvent) (st : PmState),
      st.settled ≠ some PromiseOutcome.rejectedP →
      (pmRun st evs).1.settled ≠ some PromiseOutcome.rejectedP := by
  intro evs
  induction evs with
  | nil => intro st h; simpa [pmRun] using h
  | cons e evs ih =>
      intro st h
      simp only [pmRun]
      exact ih _ (pmStep_no_reject st e h)

/-- **C10**: the `playAudioAndWait` promise settles only by resolving — its
executor never rejects, whatever events the engine fires; processing the
120-second overall timeout resolves it from any state, as do a decode/play
error event, an aborted monitor tick, and (once playback has started) the
ended event; and if no readiness event has fired when the 2-second load
timeout runs, a playback attempt is forced regardless of `readyState`. -/
theorem c10_playback_always_resolves :
    (∀ (initPaused : Bool) (evs : List PmEvent),
        (pmRun (pmInit initPaused) evs).1.settled ≠ some PromiseOutcome.rejectedP) ∧
    (∀ st : PmState, (pmStep st PmEvent.overallTimeoutE).1.resolvedFlag = true) ∧
    (∀ st : PmState, (pmStep st PmEvent.errorE).1.resolvedFlag = true) ∧
    (∀ (st : PmState) (p : Bool),
        (pmStep st (PmEvent.tickE p true)).1.resolvedFlag = true) ∧
    (∀ st : PmState, st.hasStartedPlaying = true →
        (pmStep st PmEvent.endedE).1.resolvedFlag = true) ∧
    (∀ (st : PmState) (rs2 : Bool),
        st.hasStartedPlaying = false → st.resolvedFlag = false →
        (pmStep st (PmEvent.loadTimeoutE rs2 false false)).2
          = [PmAction.startPlayA]) := by
  refine ⟨?_, ?_, ?_, ?_, ?_, ?_⟩
  · intro initPaused evs
    exact pmRun_no_reject evs (pmInit initPaused) (by simp [pmInit])
  · intro st
    simp only [pmStep, pmCleanup]
    (try split_ifs) <;> simp_all
  · intro st
    simp only [pmStep, pmCleanup]
    (try split_ifs) <;> simp_all
  · intro st p
    simp only [pmStep, pmCleanup]
    (try split_ifs) <;> simp_all
  · intro st h
    simp only [pmStep, pmCleanup]
    (try split_ifs) <;> simp_all
  · intro st rs2 h1 h2
    cases rs2 <;> simp [pmStep, pmTryPlay, h1, h2]

/-- Witness for C10: the ended event resolves a machine whose playback has
started, and the load timeout on the fresh machine forces a play attempt. -/
theorem c10_playback_always_resolves_witness :
    (pmStep { pmInit false with hasStartedPlaying := true }
        PmEvent.endedE).1.resolvedFlag = true ∧
    (pmStep (pmInit false) (PmEvent.loadTimeoutE false false false)).2
      = [PmAction.startPlayA] :=
  ⟨c10_playback_always_resolves.2.2.2.2.1 _ rfl,
   c10_playback_always_resolves.2.2.2.2.2 _ false rfl rfl⟩

end ShadowFlow
